import Mathlib

/-!
Verification development for the MediScribe client core: the audio
Recorder Controller (src/frontend/lib/api.ts, component AudioRecorder)
and the Letter Exporter (handleExport in the LetterViewer component).

Strings of the TypeScript source are embedded as lists of characters
(`Str`), so every operation is executable and kernel-decidable. Each
definition is a direct port of the corresponding source function or
branch; comments cite the source location.
-/

/-- Character-list model of a JavaScript string. -/
abbrev Str := List Char

/-- Coerce a Lean string literal into the character-list model. -/
def j (s : String) : Str := s.data

/-! ## Recorder Controller (src/frontend/lib/api.ts, AudioRecorder) -/

/-- The four values of the `RecordingState` union type (api.ts line 83). -/
inductive RState
  | idle
  | recording
  | paused
  | stopped
deriving DecidableEq, Repr

/-- User-visible toast notifications emitted by the recorder handlers. -/
inductive ToastMsg
  | recStarted      -- toast.success('Recording started')
  | recPaused       -- toast.info('Recording paused')
  | recResumed      -- toast.info('Recording resumed')
  | recStopped      -- toast.success('Recording stopped')
  | recDiscarded    -- toast.info('Recording discarded')
  | errMicDenied    -- toast.error('Microphone access denied. ...')
  | errStartFailed  -- toast.error('Failed to start recording. ...')
deriving DecidableEq, Repr

/-- A captured audio chunk, modelled as its byte contents. -/
abbrev Chunk := List Nat

/-- The component state of AudioRecorder: React state plus the refs
(api.ts lines 87-97).  `streamOpen` models whether the MediaStream
acquired from getUserMedia still has live tracks; `recorderActive`
models whether `mediaRecorderRef.current` is non-null. -/
structure RecorderState where
  recordingState : RState
  duration : Nat
  audioBlob : Option (List Nat)
  audioUrl : Bool
  chunks : List Chunk
  recorderActive : Bool
  streamOpen : Bool
  lastToast : Option ToastMsg
deriving DecidableEq, Repr

/-- Initial component state (api.ts lines 87-97). -/
def initRecorder : RecorderState :=
  { recordingState := .idle, duration := 0, audioBlob := none,
    audioUrl := false, chunks := [], recorderActive := false,
    streamOpen := false, lastToast := none }

/-- Possible outcomes of the asynchronous setup inside `startRecording`
(api.ts lines 140-183): getUserMedia resolves or rejects, and recorder
construction may itself throw after the stream was acquired. -/
inductive StartOutcome
  | ok                  -- getUserMedia resolves, MediaRecorder constructed
  | permissionDenied    -- getUserMedia rejects with NotAllowedError
  | unsupported         -- getUserMedia unavailable / rejects otherwise
  | recorderCtorFailed  -- stream acquired, then MediaRecorder setup throws
deriving DecidableEq, Repr

/-- Port of `startRecording` (api.ts lines 140-183).  On success the
stream is stored, `chunksRef.current = []`, the recorder starts, state
becomes `recording` and the duration resets to 0.  On a getUserMedia
rejection nothing was assigned yet, so only a toast is shown.  If the
stream was acquired and a later setup step throws, the catch block
(lines 175-182) shows a toast but never stops the stream's tracks, so
the stream stays open. -/
def startRecording (s : RecorderState) (o : StartOutcome) : RecorderState :=
  match o with
  | .ok =>
      { s with streamOpen := true, recorderActive := true, chunks := [],
               recordingState := .recording, duration := 0,
               lastToast := some .recStarted }
  | .permissionDenied => { s with lastToast := some .errMicDenied }
  | .unsupported => { s with lastToast := some .errStartFailed }
  | .recorderCtorFailed =>
      { s with streamOpen := true, lastToast := some .errStartFailed }

/-- Port of the `ondataavailable` handler (api.ts lines 153-157):
a delivered chunk is buffered only when `event.data.size > 0`. -/
def handleDataAvailable (s : RecorderState) (c : Chunk) : RecorderState :=
  if 0 < c.length then { s with chunks := s.chunks ++ [c] } else s

/-- Port of `pauseRecording` (api.ts lines 185-191): guarded on the
recorder ref being non-null and the state being `recording`. -/
def pauseRecording (s : RecorderState) : RecorderState :=
  if s.recorderActive = true ∧ s.recordingState = .recording then
    { s with recordingState := .paused, lastToast := some .recPaused }
  else s

/-- Port of `resumeRecording` (api.ts lines 193-199). -/
def resumeRecording (s : RecorderState) : RecorderState :=
  if s.recorderActive = true ∧ s.recordingState = .paused then
    { s with recordingState := .recording, lastToast := some .recResumed }
  else s

/-- Port of `stopRecording` (api.ts lines 201-207) merged with the
`onstop` handler it triggers (lines 159-169): the state becomes
`stopped`, the buffered chunks are assembled into one blob, an object
URL is created for it, and the stream's tracks are stopped. -/
def stopRecording (s : RecorderState) : RecorderState :=
  if s.recorderActive = true then
    { s with recordingState := .stopped,
             audioBlob := some s.chunks.flatten,
             audioUrl := true,
             streamOpen := false,
             lastToast := some .recStopped }
  else s

/-- Port of `discardRecording` (api.ts lines 209-217): revoke the
object URL if any, clear the blob, go back to `idle`, reset the
duration, clear the chunk buffer. -/
def discardRecording (s : RecorderState) : RecorderState :=
  { s with audioUrl := false, audioBlob := none,
           recordingState := .idle, duration := 0, chunks := [],
           lastToast := some .recDiscarded }

/-- Port of the timer effect (api.ts lines 116-132): an interval that
increments `duration` exists exactly while the state is `recording`,
so a one-second tick increments the counter only in that state. -/
def timerTick (s : RecorderState) : RecorderState :=
  if s.recordingState = .recording then { s with duration := s.duration + 1 }
  else s

/-- Port of the mount-effect cleanup (api.ts lines 106-113): on
component teardown the interval is cleared and the stream's tracks are
stopped.  (The `audioUrl` captured by this cleanup closure is the
initial empty string, so the revocation branch there is a no-op.) -/
def unmountCleanup (s : RecorderState) : RecorderState :=
  { s with streamOpen := false }

/-- Events that can reach the recorder component. -/
inductive Ev
  | start (o : StartOutcome)
  | dataAvailable (c : Chunk)
  | pause
  | resume
  | stop
  | discard
  | tick
  | teardown
deriving DecidableEq, Repr

/-- Dispatch one event to the handler ported from the source. -/
def recStep (s : RecorderState) (e : Ev) : RecorderState :=
  match e with
  | .start o => startRecording s o
  | .dataAvailable c => handleDataAvailable s c
  | .pause => pauseRecording s
  | .resume => resumeRecording s
  | .stop => stopRecording s
  | .discard => discardRecording s
  | .tick => timerTick s
  | .teardown => unmountCleanup s

/-- Run a sequence of events. -/
def recRun (s : RecorderState) (evs : List Ev) : RecorderState :=
  evs.foldl recStep s

/-- Events that can occur strictly inside one recording session
(between a `start` and the matching `stop`). -/
def sessionEv : Ev → Bool
  | .dataAvailable _ => true
  | .pause => true
  | .resume => true
  | .tick => true
  | _ => false

/-- Events that never reset the elapsed-seconds counter: everything
except `start` and `discard`. -/
def noResetEv : Ev → Bool
  | .start _ => false
  | .discard => false
  | _ => true

/-- The chunks delivered by a list of events, in capture order. -/
def dataChunks (evs : List Ev) : List Chunk :=
  evs.filterMap (fun e => match e with | .dataAvailable c => some c | _ => none)

/-! ## JavaScript string primitives used by handleExport -/

/-- Port of `String.prototype.startsWith`: second argument is the
candidate leading segment. -/
def startsWithS : Str → Str → Bool
  | _, [] => true
  | [], _ :: _ => false
  | c :: s, p :: ps => c == p && startsWithS s ps

/-- Port of `String.prototype.endsWith`. -/
def endsWithS (s p : Str) : Bool := startsWithS s.reverse p.reverse

/-- The characters `String.prototype.trim` removes (ASCII whitespace
plus NBSP; the only ones relevant to letter content). -/
def isJsSpace (c : Char) : Bool :=
  c == ' ' || c == '\t' || c == '\n' || c == '\r' ||
  c == '\x0b' || c == '\x0c' || c == ' '

/-- Port of `String.prototype.trim`. -/
def jsTrim (s : Str) : Str :=
  ((s.dropWhile isJsSpace).reverse.dropWhile isJsSpace).reverse

/-- Port of `content.split('\n')` (part_002 lines 865 and 936):
splitting keeps empty pieces, and splitting the empty string yields
one empty piece. -/
def splitOnNl : Str → List Str
  | [] => [[]]
  | c :: t =>
      if c == '\n' then [] :: splitOnNl t
      else
        match splitOnNl t with
        | [] => [[c]]
        | h :: r => (c :: h) :: r

/-- Port of `part.slice(a, -b)` for the nonnegative `a`, negative end
offsets used at part_002 lines 961-963. -/
def jsSliceNeg (a b : Nat) (s : Str) : Str :=
  (s.take (s.length - b)).drop a

/-! ### Port of the inline-marker regexes

The PDF branch strips markers with
`line.replace(/\*\*(.+?)\*\*/g, '$1').replace(/\*(.+?)\*/g, '$1')`
(part_002 line 892); the DOCX branch splits runs with
`line.split(/(\*\*.*?\*\*|\*.*?\*)/)` (line 957).  The scanners below
reproduce the left-to-right, lazy-quantifier semantics of those
regexes.  They recurse on a fuel argument initialised to the string
length; every recursive call consumes at least one character, so the
fuel never runs out on the initialising call. -/

/-- Find the lazy match of `(.+?)\*\*`: the shortest nonempty segment
followed by a literal `**`.  Returns the segment and the remainder
after the closing `**`. -/
def findClose2 : Str → Option (Str × Str)
  | [] => none
  | c :: t =>
      match t with
      | '*' :: '*' :: r => some ([c], r)
      | _ => (findClose2 t).map (fun p => (c :: p.1, p.2))

/-- Find the lazy match of `(.+?)\*`: the shortest nonempty segment
followed by a literal `*`. -/
def findClose1 : Str → Option (Str × Str)
  | [] => none
  | c :: t =>
      match t with
      | '*' :: r => some ([c], r)
      | _ => (findClose1 t).map (fun p => (c :: p.1, p.2))

/-- One pass of `.replace(/\*\*(.+?)\*\*/g, '$1')`: strip every paired
bold marker, scanning left to right. -/
def stripBoldGo : Nat → Str → Str
  | 0, s => s
  | _ + 1, [] => []
  | fuel + 1, '*' :: '*' :: t =>
      match findClose2 t with
      | some (mid, rest) => mid ++ stripBoldGo fuel rest
      | none => '*' :: stripBoldGo fuel ('*' :: t)
  | fuel + 1, c :: t => c :: stripBoldGo fuel t

/-- One pass of `.replace(/\*(.+?)\*/g, '$1')`. -/
def stripItalicGo : Nat → Str → Str
  | 0, s => s
  | _ + 1, [] => []
  | fuel + 1, '*' :: t =>
      match findClose1 t with
      | some (mid, rest) => mid ++ stripItalicGo fuel rest
      | none => '*' :: stripItalicGo fuel t
  | fuel + 1, c :: t => c :: stripItalicGo fuel t

/-- Port of the marker-stripping pipeline of the PDF plain-line branch
(part_002 line 892): bold markers are stripped first, then italic. -/
def stripInlineMarkers (line : Str) : Str :=
  let afterBold := stripBoldGo line.length line
  stripItalicGo afterBold.length afterBold

/-- Find the lazy match of `.*?\*\*`: the shortest (possibly empty)
segment followed by a literal `**`. -/
def findDoubleStar : Str → Option (Str × Str)
  | '*' :: '*' :: r => some ([], r)
  | [] => none
  | c :: t => (findDoubleStar t).map (fun p => (c :: p.1, p.2))

/-- Find the lazy match of `.*?\*`: the shortest (possibly empty)
segment followed by a literal `*`. -/
def findCharStar : Str → Option (Str × Str)
  | '*' :: r => some ([], r)
  | [] => none
  | c :: t => (findCharStar t).map (fun p => (c :: p.1, p.2))

/-- Try to match the regex `\*\*.*?\*\*|\*.*?\*` at the head of the
string: the alternation tries the bold branch first; its inner `.*?`
may be empty.  Returns the matched text and the remainder. -/
def tryMatchDelim : Str → Option (Str × Str)
  | '*' :: '*' :: t =>
      match findDoubleStar t with
      | some (mid, rest) => some ('*' :: '*' :: (mid ++ ['*', '*']), rest)
      | none =>
          -- Bold branch fails; the italic branch `\*.*?\*` matches the
          -- two leading stars with an empty middle.
          some (['*', '*'], t)
  | '*' :: t =>
      match findCharStar t with
      | some (mid, rest) => some ('*' :: (mid ++ ['*']), rest)
      | none => none
  | _ => none

/-- Split on the delimiter regex as `String.prototype.split` with one
capturing group does: the result alternates unmatched gaps (possibly
empty) with matched delimiters. -/
def splitDelimGo : Nat → Str → Str → List Str
  | 0, gap, s => [gap.reverse ++ s]
  | fuel + 1, gap, s =>
      match s with
      | [] => [gap.reverse]
      | c :: t =>
          match tryMatchDelim (c :: t) with
          | some (m, rest) => gap.reverse :: m :: splitDelimGo fuel [] rest
          | none => splitDelimGo fuel (c :: gap) t

/-- Port of `line.split(/(\*\*.*?\*\*|\*.*?\*)/)` (part_002 line 957). -/
def splitDelims (line : Str) : List Str :=
  splitDelimGo line.length [] line

/-! ## Letter data model (src/unnamed/part_003, types/letter) -/

/-- The `LetterType` union (part_003 lines 1-8). -/
inductive LetterType
  | referral
  | consultation
  | discharge_summary
  | medical_report
  | prescription
  | sick_note
  | other
deriving DecidableEq, Repr

/-- Port of `LETTER_TYPE_LABELS` (part_003 lines 52-60). -/
def letterTypeLabel : LetterType → Str
  | .referral => j "Referral Letter"
  | .consultation => j "Consultation Note"
  | .discharge_summary => j "Discharge Summary"
  | .medical_report => j "Medical Report"
  | .prescription => j "Prescription"
  | .sick_note => j "Sick Note / Medical Certificate"
  | .other => j "Other Medical Letter"

/-- The fields of the `Letter` interface (part_003 lines 12-26) read by
`handleExport`; the id, user, status and timestamp fields are never
consulted by the exporter and are omitted. -/
structure Letter where
  letter_type : LetterType
  title : Str
  content : Str
  patient_name : Option Str
  patient_age : Option Str
  patient_gender : Option Str
deriving DecidableEq, Repr

/-- JavaScript truthiness of an optional string field: `undefined` and
the empty string are falsy. -/
def truthy : Option Str → Bool
  | none => false
  | some s => !s.isEmpty

/-- The string value of an optional field (used only under a `truthy`
guard, where the field is present). -/
def optStr : Option Str → Str
  | none => []
  | some s => s

/-- Port of the filename base (part_002 lines 805-807):
the label, then `patient_name || 'Letter'`, then the date part of the
ISO timestamp, joined by underscores.  The current date is an external
input and is passed as the `today` parameter. -/
def exportFilename (letter : Letter) (today : Str) : Str :=
  letterTypeLabel letter.letter_type ++ j "_" ++
    (if truthy letter.patient_name = true then optStr letter.patient_name
     else j "Letter") ++
    j "_" ++ today

/-! ## Text emitter (part_002 lines 810-821) -/

/-- The artifact produced by the TXT branch: a Blob built from the
content with MIME type text/plain, downloaded under the shared
filename base plus the txt extension. -/
structure TxtArtifact where
  filename : Str
  payload : Str
  mimeType : Str
deriving DecidableEq, Repr

/-- Port of the `format === 'txt'` branch of `handleExport`. -/
def handleExportTxt (letter : Letter) (today : Str) : TxtArtifact :=
  { filename := exportFilename letter today ++ j ".txt",
    payload := letter.content,
    mimeType := j "text/plain" }

/-! ## PDF emitter (part_002 lines 822-902) -/

/-- jsPDF A4 portrait page height in millimetres. -/
def pdfPageHeight : Nat := 297

/-- The fixed margin (part_002 line 832). -/
def pdfMargin : Nat := 20

/-- The lowest cursor position the pre-line check accepts without
starting a new page: `pageHeight - margin`. -/
def pdfPrintableBottom : Nat := pdfPageHeight - pdfMargin

/-- One `doc.text(...)` call: the page and cursor position it was
issued at, the wrapped display lines passed to it, the active font
size and boldness, and the per-display-line cursor advance the code
charges for it (`yPosition += wrappedText.length * adv`).  Header
blocks are single-line; their `lineAdv` is recorded as 0 because the
code advances the cursor by explicit constants after them. -/
structure PdfBlock where
  page : Nat
  y : Nat
  lines : List Str
  fontSize : Nat
  bold : Bool
  lineAdv : Nat
deriving DecidableEq, Repr

/-- The running state of the PDF body loop: current page, vertical
cursor, and the text blocks issued so far. -/
structure PdfSt where
  page : Nat
  y : Nat
  blocks : List PdfBlock
deriving DecidableEq, Repr

/-- The heading-3 marker `### ` tested first at part_002 line 873. -/
def h3marker : Str := j "### "

/-- The heading-4 marker `#### ` tested at part_002 line 882. -/
def h4marker : Str := j "#### "

/-- Port of the pre-line page check (part_002 lines 867-870): when the
cursor exceeds `pageHeight - margin`, `doc.addPage()` is called and
the cursor resets to the top margin. -/
def pdfPageCheck (st : PdfSt) : PdfSt :=
  if pdfPrintableBottom < st.y then
    { st with page := st.page + 1, y := pdfMargin }
  else st

/-- Port of the body of the PDF line loop after the page check
(part_002 lines 872-898): `### ` headings at font 13 bold advancing 6
per wrapped line, `#### ` headings at font 12 bold advancing 5, plain
nonblank lines at font 11 with inline markers stripped advancing 5,
and blank lines advancing the cursor by 5 without drawing.  The
wrapped display lines come from `doc.splitTextToSize`, modelled by the
`wrap` parameter of the external library interface. -/
def pdfRenderLine (wrap : Str → List Str) (st : PdfSt) (line : Str) : PdfSt :=
  if startsWithS line h3marker = true then
    let wrapped := wrap (line.drop 4)
    { st with blocks := st.blocks ++ [⟨st.page, st.y, wrapped, 13, true, 6⟩],
              y := st.y + wrapped.length * 6 }
  else if startsWithS line h4marker = true then
    let wrapped := wrap (line.drop 5)
    { st with blocks := st.blocks ++ [⟨st.page, st.y, wrapped, 12, true, 5⟩],
              y := st.y + wrapped.length * 5 }
  else if jsTrim line ≠ [] then
    let wrapped := wrap (stripInlineMarkers line)
    { st with blocks := st.blocks ++ [⟨st.page, st.y, wrapped, 11, false, 5⟩],
              y := st.y + wrapped.length * 5 }
  else
    { st with y := st.y + 5 }

/-- One iteration of `for (const line of lines)` in the PDF branch. -/
def pdfLineStep (wrap : Str → List Str) (st : PdfSt) (line : Str) : PdfSt :=
  pdfRenderLine wrap (pdfPageCheck st) line

/-- Port of `info.join(', ')` for the demographic line (part_002
lines 850-854). -/
def patientInfoLine (letter : Letter) : Str :=
  List.intercalate (j ", ")
    ((if truthy letter.patient_age = true then
        [j "Age: " ++ optStr letter.patient_age] else []) ++
     (if truthy letter.patient_gender = true then
        [j "Gender: " ++ optStr letter.patient_gender] else []))

/-- Port of the PDF header (part_002 lines 836-858): the bold title at
the top margin, the cursor advancing 10, then — when any demographic
field is truthy — the `Patient:` line and/or the joined age/gender
line at font 10, each advancing 6, followed by a final advance of 4. -/
def pdfHeaderSt (letter : Letter) : PdfSt :=
  let titleBlock : PdfBlock :=
    ⟨1, pdfMargin, [letterTypeLabel letter.letter_type], 16, true, 0⟩
  let yAfterTitle : Nat := pdfMargin + 10
  if (truthy letter.patient_name || truthy letter.patient_age ||
      truthy letter.patient_gender) = true then
    let nameBlocks : List PdfBlock :=
      if truthy letter.patient_name = true then
        [⟨1, yAfterTitle, [j "Patient: " ++ optStr letter.patient_name],
          10, false, 0⟩]
      else []
    let yAfterName : Nat :=
      if truthy letter.patient_name = true then yAfterTitle + 6 else yAfterTitle
    let infoBlocks : List PdfBlock :=
      if (truthy letter.patient_age || truthy letter.patient_gender) = true then
        [⟨1, yAfterName, [patientInfoLine letter], 10, false, 0⟩]
      else []
    let yAfterInfo : Nat :=
      if (truthy letter.patient_age || truthy letter.patient_gender) = true then
        yAfterName + 6
      else yAfterName
    ⟨1, yAfterInfo + 4, [titleBlock] ++ nameBlocks ++ infoBlocks⟩
  else
    ⟨1, yAfterTitle, [titleBlock]⟩

/-- The document produced by the PDF branch: its filename, the text
blocks issued, and the number of pages (final page index, since pages
are only ever appended). -/
structure PdfDoc where
  filename : Str
  blocks : List PdfBlock
  pages : Nat
deriving DecidableEq, Repr

/-- Port of the `format === 'pdf'` branch of `handleExport`
(part_002 lines 822-902). -/
def handleExportPdf (wrap : Str → List Str) (letter : Letter)
    (today : Str) : PdfDoc :=
  let stF := (splitOnNl letter.content).foldl (pdfLineStep wrap)
    (pdfHeaderSt letter)
  { filename := exportFilename letter today ++ j ".pdf",
    blocks := stF.blocks,
    pages := stF.page }

/-! ## Word emitter (part_002 lines 903-989) -/

/-- A styled run inside a DOCX paragraph (part_002 lines 959-967). -/
inductive DocxRun
  | plainR (text : Str)
  | boldR (text : Str)
  | italicR (text : Str)
deriving DecidableEq, Repr

/-- A DOCX paragraph as constructed by the source: a heading paragraph
with its level, a paragraph given plain text (the patient lines and
blank lines), or a paragraph given styled run children. -/
inductive DocxPara
  | headingPara (level : Nat) (text : Str)
  | textPara (text : Str)
  | runsPara (runs : List DocxRun)
deriving DecidableEq, Repr

/-- Port of the per-part run construction (part_002 lines 959-967):
a part wrapped in `**` becomes a bold run, one wrapped in `*` an
italic run, any other nonempty part a plain run, and empty parts are
skipped. -/
def partToRun? (p : Str) : Option DocxRun :=
  if startsWithS p (j "**") && endsWithS p (j "**") then
    some (.boldR (jsSliceNeg 2 2 p))
  else if startsWithS p (j "*") && endsWithS p (j "*") then
    some (.italicR (jsSliceNeg 1 1 p))
  else if p.isEmpty then none
  else some (.plainR p)

/-- The runs of one plain content line (part_002 lines 956-967). -/
def lineRuns (line : Str) : List DocxRun :=
  (splitDelims line).filterMap partToRun?

/-- Port of the DOCX body line dispatch (part_002 lines 937-978):
`### ` becomes HEADING_2, `#### ` becomes HEADING_3, other nonblank
lines become run paragraphs, blank lines become empty paragraphs. -/
def docxLinePara (line : Str) : DocxPara :=
  if startsWithS line h3marker = true then .headingPara 2 (line.drop 4)
  else if startsWithS line h4marker = true then .headingPara 3 (line.drop 5)
  else if jsTrim line ≠ [] then .runsPara (lineRuns line)
  else .textPara []

/-- The paragraphs produced for the content body (part_002 line 936):
one paragraph per source line. -/
def docxBodyParas (content : Str) : List DocxPara :=
  (splitOnNl content).map docxLinePara

/-- Port of the DOCX title and patient header (part_002 lines
907-933): a HEADING_1 title, then one plain paragraph per truthy
demographic field followed by an empty spacer paragraph. -/
def docxHeaderParas (letter : Letter) : List DocxPara :=
  [.headingPara 1 (letterTypeLabel letter.letter_type)] ++
  (if (truthy letter.patient_name || truthy letter.patient_age ||
       truthy letter.patient_gender) = true then
    ((if truthy letter.patient_name = true then
        [DocxPara.textPara (j "Patient: " ++ optStr letter.patient_name)]
      else []) ++
     (if truthy letter.patient_age = true then
        [DocxPara.textPara (j "Age: " ++ optStr letter.patient_age)]
      else []) ++
     (if truthy letter.patient_gender = true then
        [DocxPara.textPara (j "Gender: " ++ optStr letter.patient_gender)]
      else [])) ++
    [DocxPara.textPara []]
  else [])

/-- The document produced by the DOCX branch. -/
structure DocxDoc where
  filename : Str
  paragraphs : List DocxPara
deriving DecidableEq, Repr

/-- Port of the `format === 'docx'` branch of `handleExport`
(part_002 lines 903-989). -/
def handleExportDocx (letter : Letter) (today : Str) : DocxDoc :=
  { filename := exportFilename letter today ++ j ".docx",
    paragraphs := docxHeaderParas letter ++ docxBodyParas letter.content }

/-! ## Concrete instances used by witnesses and counterexamples -/

/-- A component state that is currently recording. -/
def sRecConcrete : RecorderState :=
  { initRecorder with recordingState := .recording, recorderActive := true,
                      streamOpen := true }

/-- A concrete in-session event trace: two nonempty chunks, a tick, a
pause/resume cycle, and one empty chunk-available event. -/
def evC1 : List Ev :=
  [.dataAvailable [1, 2], .tick, .pause, .resume,
   .dataAvailable [], .dataAvailable [3]]

/-- The identity wrapping model of `doc.splitTextToSize`: every string
fits on one display line. -/
def idWrap : Str → List Str := fun s => [s]

/-- Wrapping model of `doc.splitTextToSize` that breaks a string into
display lines of at most 50 characters (about what fits in the 170mm
content width at font size 11). -/
def chunkGo : Nat → Str → List Str
  | 0, s => [s]
  | fuel + 1, s =>
      if s.length ≤ 50 then [s] else s.take 50 :: chunkGo fuel (s.drop 50)

/-- See `chunkGo`. -/
def wrap50 (s : Str) : List Str := chunkGo s.length s

/-- A letter whose body is 49 one-character lines followed by one
600-character line: the long line reaches the bottom of page one and
wraps to 12 display lines. -/
def c4letter : Letter :=
  { letter_type := .other, title := [],
    content := List.intercalate ['\n']
      (List.replicate 49 ['a'] ++ [List.replicate 600 'x']),
    patient_name := none, patient_age := none, patient_gender := none }

/-- A letter whose body is 52 one-character lines, one more than fits
on the first page. -/
def c4letter52 : Letter :=
  { letter_type := .other, title := [],
    content := List.intercalate ['\n'] (List.replicate 52 ['a']),
    patient_name := none, patient_age := none, patient_gender := none }

/-- The content fixed by the specification's Word-emitter test case. -/
def c5content : Str :=
  j "### Heading\nPlain line with *italic* and **bold**.\n\nSecond paragraph."

/-- The second line of `c5content`. -/
def c5plainLine : Str := j "Plain line with *italic* and **bold**."

/-- The letter fixed by the specification's text-emitter round-trip. -/
def c7letter : Letter :=
  { letter_type := .other, title := [], content := j "Hello **world**",
    patient_name := none, patient_age := none, patient_gender := none }

/-- A PDF loop state in the middle of page one with no blocks yet. -/
def stC3 : PdfSt := { page := 1, y := 30, blocks := [] }

/-- Whether the code's own cursor accounting for a text block — it
charges `lineAdv` of vertical space per wrapped display line, drawing
display line i at `y + i * lineAdv` — places some display line of the
block below the printable bottom margin. -/
def blockOverflows (b : PdfBlock) : Bool :=
  decide (pdfPrintableBottom < b.y + (b.lines.length - 1) * b.lineAdv)

/-! ## Helper lemmas: recorder -/

theorem pauseRecording_fields (s : RecorderState) :
    (pauseRecording s).chunks = s.chunks ∧
    (pauseRecording s).recorderActive = s.recorderActive ∧
    (pauseRecording s).duration = s.duration := by
  unfold pauseRecording
  split <;> exact ⟨rfl, rfl, rfl⟩

theorem resumeRecording_fields (s : RecorderState) :
    (resumeRecording s).chunks = s.chunks ∧
    (resumeRecording s).recorderActive = s.recorderActive ∧
    (resumeRecording s).duration = s.duration := by
  unfold resumeRecording
  split <;> exact ⟨rfl, rfl, rfl⟩

theorem stopRecording_fields (s : RecorderState) :
    (stopRecording s).chunks = s.chunks ∧
    (stopRecording s).recorderActive = s.recorderActive ∧
    (stopRecording s).duration = s.duration := by
  unfold stopRecording
  split <;> exact ⟨rfl, rfl, rfl⟩

theorem timerTick_fields (s : RecorderState) :
    (timerTick s).chunks = s.chunks ∧
    (timerTick s).recorderActive = s.recorderActive := by
  unfold timerTick
  split <;> exact ⟨rfl, rfl⟩

theorem handleDataAvailable_fields (s : RecorderState) (c : Chunk) :
    (handleDataAvailable s c).recorderActive = s.recorderActive ∧
    (handleDataAvailable s c).duration = s.duration := by
  unfold handleDataAvailable
  split <;> exact ⟨rfl, rfl⟩

/-- Dropping the empty chunks of a list does not change its
concatenation. -/
theorem flatten_filter_pos (l : List Chunk) :
    (l.filter (fun c => decide (0 < c.length))).flatten = l.flatten := by
  induction l with
  | nil => rfl
  | cons c t ih =>
      by_cases h : 0 < c.length
      · simp [List.filter_cons, h, ih]
      · have hc : c = [] := by
          cases c with
          | nil => rfl
          | cons a b => simp at h
        subst hc
        simp [List.filter_cons, ih]

/-- Running in-session events appends exactly the nonempty delivered
chunks, in order, and leaves the recorder ref alone. -/
theorem recRun_session_facts :
    ∀ (evs : List Ev) (s : RecorderState), evs.all sessionEv = true →
      (recRun s evs).chunks
          = s.chunks ++ (dataChunks evs).filter (fun c => decide (0 < c.length)) ∧
      (recRun s evs).recorderActive = s.recorderActive := by
  intro evs
  induction evs with
  | nil => intro s _; simp [recRun, dataChunks]
  | cons e t ih =>
      intro s hall
      rw [List.all_cons, Bool.and_eq_true] at hall
      obtain ⟨he, ht⟩ := hall
      have hstep : recRun s (e :: t) = recRun (recStep s e) t := rfl
      cases e with
      | dataAvailable c =>
          obtain ⟨ihc, iha⟩ := ih (recStep s (.dataAvailable c)) ht
          rw [hstep, ihc, iha]
          by_cases hc : 0 < c.length
          · simp [recStep, handleDataAvailable, hc, dataChunks,
              List.filter_cons, List.append_assoc]
          · simp [recStep, handleDataAvailable, hc, dataChunks,
              List.filter_cons]
      | pause =>
          obtain ⟨ihc, iha⟩ := ih (recStep s .pause) ht
          rw [hstep, ihc, iha]
          obtain ⟨h1, h2, _⟩ := pauseRecording_fields s
          simp [recStep, dataChunks] at h1 h2 ⊢
          rw [h1, h2]
          exact ⟨rfl, rfl⟩
      | resume =>
          obtain ⟨ihc, iha⟩ := ih (recStep s .resume) ht
          rw [hstep, ihc, iha]
          obtain ⟨h1, h2, _⟩ := resumeRecording_fields s
          simp [recStep, dataChunks] at h1 h2 ⊢
          rw [h1, h2]
          exact ⟨rfl, rfl⟩
      | tick =>
          obtain ⟨ihc, iha⟩ := ih (recStep s .tick) ht
          rw [hstep, ihc, iha]
          obtain ⟨h1, h2⟩ := timerTick_fields s
          simp [recStep, dataChunks] at h1 h2 ⊢
          rw [h1, h2]
          exact ⟨rfl, rfl⟩
      | start o => simp [sessionEv] at he
      | stop => simp [sessionEv] at he
      | discard => simp [sessionEv] at he
      | teardown => simp [sessionEv] at he

/-- One non-resetting event never decreases the counter. -/
theorem recStep_duration_mono (s : RecorderState) (e : Ev)
    (he : noResetEv e = true) : s.duration ≤ (recStep s e).duration := by
  cases e with
  | start o => simp [noResetEv] at he
  | discard => simp [noResetEv] at he
  | dataAvailable c => exact le_of_eq (handleDataAvailable_fields s c).2.symm
  | pause => exact le_of_eq (pauseRecording_fields s).2.2.symm
  | resume => exact le_of_eq (resumeRecording_fields s).2.2.symm
  | stop => exact le_of_eq (stopRecording_fields s).2.2.symm
  | teardown => exact le_rfl
  | tick =>
      show s.duration ≤ (timerTick s).duration
      unfold timerTick
      split
      · exact Nat.le_succ s.duration
      · exact le_rfl

/-- A run of non-resetting events never decreases the counter. -/
theorem recRun_duration_mono :
    ∀ (evs : List Ev) (s : RecorderState), evs.all noResetEv = true →
      s.duration ≤ (recRun s evs).duration := by
  intro evs
  induction evs with
  | nil => intro s _; exact le_rfl
  | cons e t ih =>
      intro s hall
      rw [List.all_cons, Bool.and_eq_true] at hall
      exact le_trans (recStep_duration_mono s e hall.1)
        (ih (recStep s e) hall.2)

/-- Every buffered chunk is nonempty. -/
def chunksPos (s : RecorderState) : Prop := ∀ c ∈ s.chunks, 0 < c.length

/-- Each event handler preserves chunk nonemptiness. -/
theorem recStep_chunksPos (s : RecorderState) (e : Ev) (h : chunksPos s) :
    chunksPos (recStep s e) := by
  cases e with
  | start o =>
      cases o with
      | ok => intro c hc; simp [recStep, startRecording] at hc
      | permissionDenied => exact h
      | unsupported => exact h
      | recorderCtorFailed => exact h
  | dataAvailable c =>
      intro d hd
      have hd2 : d ∈ (handleDataAvailable s c).chunks := hd
      unfold handleDataAvailable at hd2
      by_cases hc : 0 < c.length
      · rw [if_pos hc] at hd2
        simp only [List.mem_append, List.mem_singleton] at hd2
        rcases hd2 with hd2 | hd2
        · exact h d hd2
        · subst hd2; exact hc
      · rw [if_neg hc] at hd2
        exact h d hd2
  | pause => intro c hc; rw [recStep, (pauseRecording_fields s).1] at hc; exact h c hc
  | resume => intro c hc; rw [recStep, (resumeRecording_fields s).1] at hc; exact h c hc
  | stop => intro c hc; rw [recStep, (stopRecording_fields s).1] at hc; exact h c hc
  | discard => intro c hc; simp [recStep, discardRecording] at hc
  | tick => intro c hc; rw [recStep, (timerTick_fields s).1] at hc; exact h c hc
  | teardown => exact h

/-- Chunk nonemptiness holds along every run. -/
theorem recRun_chunksPos :
    ∀ (evs : List Ev) (s : RecorderState), chunksPos s →
      chunksPos (recRun s evs) := by
  intro evs
  induction evs with
  | nil => intro s h; exact h
  | cons e t ih => intro s h; exact ih (recStep s e) (recStep_chunksPos s e h)

/-! ## Helper lemmas: string primitives -/

/-- A string always begins with the segment it is built from. -/
theorem startsWithS_append_self :
    ∀ (p t : Str), startsWithS (p ++ t) p = true := by
  intro p
  induction p with
  | nil =>
      intro t
      cases t <;> rfl
  | cons c p ih =>
      intro t
      simp only [List.cons_append, startsWithS, beq_self_eq_true, Bool.true_and]
      exact ih t

/-- `startsWithS` characterised by an explicit decomposition. -/
theorem startsWithS_iff :
    ∀ (p s : Str), startsWithS s p = true ↔ ∃ t, s = p ++ t := by
  intro p
  induction p with
  | nil =>
      intro s
      constructor
      · intro _; exact ⟨s, rfl⟩
      · intro _; cases s <;> rfl
  | cons c p ih =>
      intro s
      cases s with
      | nil =>
          simp only [startsWithS, List.cons_append]
          constructor
          · intro h; cases h
          · rintro ⟨t, ht⟩; cases ht
      | cons a s2 =>
          simp only [startsWithS, Bool.and_eq_true, beq_iff_eq, ih s2,
            List.cons_append]
          constructor
          · rintro ⟨rfl, t, rfl⟩; exact ⟨t, rfl⟩
          · rintro ⟨t, ht⟩
            injection ht with h1 h2
            exact ⟨h1, t, h2⟩

/-- A line that carries the `#### ` marker does not carry the `### `
marker, because the two differ at their fourth character. -/
theorem h4_not_h3 (line : Str) (h : startsWithS line h4marker = true) :
    startsWithS line h3marker = false := by
  rw [startsWithS_iff] at h
  obtain ⟨t, rfl⟩ := h
  have e4 : h4marker = ['#', '#', '#', '#', ' '] := rfl
  have e3 : h3marker = ['#', '#', '#', ' '] := rfl
  rw [e4, e3]
  simp [startsWithS]

/-- Dropping the length of the leading segment recovers the tail. -/
theorem drop_marker (p t : Str) : (p ++ t).drop p.length = t := by
  simp

/-! ## Helper lemmas: PDF pagination -/

/-- Every block of a list starts inside the printable region. -/
def BlocksInMargins (blocks : List PdfBlock) : Prop :=
  ∀ b ∈ blocks, pdfMargin ≤ b.y ∧ b.y ≤ pdfPrintableBottom

theorem pdfPageCheck_y (st : PdfSt) (h : pdfMargin ≤ st.y) :
    pdfMargin ≤ (pdfPageCheck st).y ∧
    (pdfPageCheck st).y ≤ pdfPrintableBottom := by
  unfold pdfPageCheck
  split
  · exact ⟨le_rfl, show pdfMargin ≤ pdfPrintableBottom by decide⟩
  · next hlt => exact ⟨h, Nat.le_of_not_lt hlt⟩

theorem pdfPageCheck_blocks (st : PdfSt) :
    (pdfPageCheck st).blocks = st.blocks := by
  unfold pdfPageCheck
  split <;> rfl

theorem pdfPageCheck_page (st : PdfSt) :
    st.page ≤ (pdfPageCheck st).page := by
  unfold pdfPageCheck
  split
  · exact Nat.le_succ st.page
  · exact le_rfl

theorem pdfPageCheck_of_le (st : PdfSt) (h : st.y ≤ pdfPrintableBottom) :
    pdfPageCheck st = st := by
  unfold pdfPageCheck
  rw [if_neg (Nat.not_lt.mpr h)]

theorem pdfRenderLine_page (wrap : Str → List Str) (st : PdfSt) (line : Str) :
    (pdfRenderLine wrap st line).page = st.page := by
  unfold pdfRenderLine
  split
  · rfl
  · split
    · rfl
    · split <;> rfl

theorem pdfRenderLine_y_ge (wrap : Str → List Str) (st : PdfSt) (line : Str) :
    st.y ≤ (pdfRenderLine wrap st line).y := by
  unfold pdfRenderLine
  split
  · exact Nat.le_add_right _ _
  · split
    · exact Nat.le_add_right _ _
    · split
      · exact Nat.le_add_right _ _
      · exact Nat.le_add_right _ _

theorem pdfRenderLine_blocks (wrap : Str → List Str) (st : PdfSt) (line : Str)
    (hy : pdfMargin ≤ st.y ∧ st.y ≤ pdfPrintableBottom)
    (hb : BlocksInMargins st.blocks) :
    BlocksInMargins (pdfRenderLine wrap st line).blocks := by
  unfold pdfRenderLine
  have hnew : ∀ (ls : List Str) (fs : Nat) (bd : Bool) (adv : Nat),
      BlocksInMargins (st.blocks ++ [⟨st.page, st.y, ls, fs, bd, adv⟩]) := by
    intro ls fs bd adv b hbmem
    rcases List.mem_append.mp hbmem with hm | hm
    · exact hb b hm
    · rw [List.mem_singleton] at hm
      subst hm
      exact hy
  split
  · exact hnew _ _ _ _
  · split
    · exact hnew _ _ _ _
    · split
      · exact hnew _ _ _ _
      · exact hb

theorem pdfLineStep_invariants (wrap : Str → List Str) (st : PdfSt) (line : Str)
    (hy : pdfMargin ≤ st.y) (hb : BlocksInMargins st.blocks) :
    pdfMargin ≤ (pdfLineStep wrap st line).y ∧
    BlocksInMargins (pdfLineStep wrap st line).blocks := by
  unfold pdfLineStep
  have h1 := pdfPageCheck_y st hy
  have h2 : BlocksInMargins (pdfPageCheck st).blocks := by
    rw [pdfPageCheck_blocks]; exact hb
  exact ⟨le_trans h1.1 (pdfRenderLine_y_ge wrap (pdfPageCheck st) line),
         pdfRenderLine_blocks wrap (pdfPageCheck st) line h1 h2⟩

theorem pdfLineStep_page_mono (wrap : Str → List Str) (st : PdfSt) (line : Str) :
    st.page ≤ (pdfLineStep wrap st line).page := by
  unfold pdfLineStep
  rw [pdfRenderLine_page]
  exact pdfPageCheck_page st

theorem pdfLineStep_break (wrap : Str → List Str) (st : PdfSt) (line : Str)
    (h : pdfPrintableBottom < st.y) :
    (pdfLineStep wrap st line).page = st.page + 1 := by
  unfold pdfLineStep
  rw [pdfRenderLine_page]
  unfold pdfPageCheck
  rw [if_pos h]

theorem pdfLineStep_page_or_y (wrap : Str → List Str)
    (hwrap : ∀ s, 1 ≤ (wrap s).length) (st : PdfSt) (line : Str)
    (hpage : 1 ≤ st.page) :
    2 ≤ (pdfLineStep wrap st line).page ∨
    ((pdfLineStep wrap st line).page = st.page ∧
     st.y + 5 ≤ (pdfLineStep wrap st line).y) := by
  by_cases h : pdfPrintableBottom < st.y
  · left
    rw [pdfLineStep_break wrap st line h]
    omega
  · right
    unfold pdfLineStep
    rw [pdfPageCheck_of_le st (Nat.le_of_not_lt h)]
    refine ⟨pdfRenderLine_page wrap st line, ?_⟩
    unfold pdfRenderLine
    split
    · have := hwrap ((line.drop 4))
      simp only []
      omega
    · split
      · have := hwrap ((line.drop 5))
        simp only []
        omega
      · split
        · have := hwrap (stripInlineMarkers line)
          simp only []
          omega
        · simp only []
          omega

theorem pdfFold_invariants (wrap : Str → List Str) :
    ∀ (lines : List Str) (st : PdfSt), pdfMargin ≤ st.y →
      BlocksInMargins st.blocks →
      pdfMargin ≤ (lines.foldl (pdfLineStep wrap) st).y ∧
      BlocksInMargins (lines.foldl (pdfLineStep wrap) st).blocks := by
  intro lines
  induction lines with
  | nil => intro st hy hb; exact ⟨hy, hb⟩
  | cons l t ih =>
      intro st hy hb
      obtain ⟨hy2, hb2⟩ := pdfLineStep_invariants wrap st l hy hb
      exact ih (pdfLineStep wrap st l) hy2 hb2

theorem pdfFold_page_mono (wrap : Str → List Str) :
    ∀ (lines : List Str) (st : PdfSt),
      st.page ≤ (lines.foldl (pdfLineStep wrap) st).page := by
  intro lines
  induction lines with
  | nil => intro st; exact le_rfl
  | cons l t ih =>
      intro st
      exact le_trans (pdfLineStep_page_mono wrap st l) (ih (pdfLineStep wrap st l))

theorem pdfFold_page_or_y (wrap : Str → List Str)
    (hwrap : ∀ s, 1 ≤ (wrap s).length) :
    ∀ (lines : List Str) (st : PdfSt), 1 ≤ st.page →
      2 ≤ (lines.foldl (pdfLineStep wrap) st).page ∨
      ((lines.foldl (pdfLineStep wrap) st).page = st.page ∧
       st.y + 5 * lines.length ≤ (lines.foldl (pdfLineStep wrap) st).y) := by
  intro lines
  induction lines with
  | nil => intro st _; right; exact ⟨rfl, by simp⟩
  | cons l t ih =>
      intro st hpage
      rw [List.foldl_cons]
      rcases pdfLineStep_page_or_y wrap hwrap st l hpage with h | ⟨hpe, hy⟩
      · left
        exact le_trans h (pdfFold_page_mono wrap t (pdfLineStep wrap st l))
      · rcases ih (pdfLineStep wrap st l) (by omega) with h2 | ⟨hpe2, hy2⟩
        · left; exact h2
        · right
          refine ⟨by rw [hpe2, hpe], ?_⟩
          simp only [List.length_cons]
          omega

/-- A fold over at least 52 lines starting on page one at or below the
post-header cursor position reaches at least page two. -/
theorem pdfFold_two_pages (wrap : Str → List Str)
    (hwrap : ∀ s, 1 ≤ (wrap s).length) (lines : List Str) (st : PdfSt)
    (hpage : st.page = 1) (hy : 30 ≤ st.y) (hlen : 52 ≤ lines.length) :
    2 ≤ (lines.foldl (pdfLineStep wrap) st).page := by
  have hsplit : lines = lines.take 51 ++ lines.drop 51 :=
    (List.take_append_drop 51 lines).symm
  rw [hsplit, List.foldl_append]
  rcases pdfFold_page_or_y wrap hwrap (lines.take 51) st (by omega) with h | ⟨hpe, hys⟩
  · exact le_trans h
      (pdfFold_page_mono wrap (lines.drop 51) ((lines.take 51).foldl (pdfLineStep wrap) st))
  · have hlen51 : (lines.take 51).length = 51 := by
      rw [List.length_take]
      omega
    rw [hlen51] at hys
    have hover : pdfPrintableBottom
        < ((lines.take 51).foldl (pdfLineStep wrap) st).y := by
      have : pdfPrintableBottom = 277 := rfl
      omega
    have hdrop : ∃ l t2, lines.drop 51 = l :: t2 := by
      cases hcase : lines.drop 51 with
      | nil =>
          have := List.length_drop 51 lines
          rw [hcase] at this
          simp at this
          omega
      | cons l t2 => exact ⟨l, t2, rfl⟩
    obtain ⟨l, t2, ht⟩ := hdrop
    rw [ht, List.foldl_cons]
    have hb := pdfLineStep_break wrap ((lines.take 51).foldl (pdfLineStep wrap) st) l hover
    have h2 : 2 ≤ (pdfLineStep wrap ((lines.take 51).foldl (pdfLineStep wrap) st) l).page := by
      rw [hb, hpe, hpage]
    exact le_trans h2 (pdfFold_page_mono wrap t2 _)

/-- The page-one facts of the header: page one, cursor at least 30,
all header blocks inside the printable region. -/
theorem pdfHeaderSt_facts (letter : Letter) :
    (pdfHeaderSt letter).page = 1 ∧ 30 ≤ (pdfHeaderSt letter).y ∧
    BlocksInMargins (pdfHeaderSt letter).blocks := by
  cases hn : truthy letter.patient_name <;>
  cases ha : truthy letter.patient_age <;>
  cases hg : truthy letter.patient_gender <;>
  simp [pdfHeaderSt, hn, ha, hg, BlocksInMargins, pdfMargin,
    pdfPrintableBottom, pdfPageHeight]

/-! ## Claim C1 -/

/-- Claim C1 (confirmed): after `stop()`, the assembled blob is the
concatenation, in capture order, of every chunk delivered since the
most recent `start()` — chunk-available events with empty payloads
contribute nothing, so no byte is dropped or duplicated — and its size
is the sum of the delivered chunk sizes. -/
theorem c1_assembled_blob_is_concat (s : RecorderState) (evs : List Ev)
    (hsession : evs.all sessionEv = true) :
    (stopRecording (recRun (startRecording s .ok) evs)).audioBlob
        = some (dataChunks evs).flatten ∧
    ((stopRecording (recRun (startRecording s .ok) evs)).audioBlob.map
        List.length) = some ((dataChunks evs).map List.length).sum := by
  obtain ⟨hc, ha⟩ := recRun_session_facts evs (startRecording s .ok) hsession
  have hstart_chunks : (startRecording s .ok).chunks = [] := rfl
  have hstart_active : (startRecording s .ok).recorderActive = true := rfl
  rw [hstart_chunks, List.nil_append] at hc
  rw [hstart_active] at ha
  have hblob : (stopRecording (recRun (startRecording s .ok) evs)).audioBlob
      = some (recRun (startRecording s .ok) evs).chunks.flatten := by
    unfold stopRecording
    rw [if_pos ha]
  rw [hblob, hc, flatten_filter_pos]
  refine ⟨rfl, ?_⟩
  simp [List.length_flatten]

/-- Witness for C1 at the concrete trace `evC1`. -/
theorem c1_assembled_blob_is_concat_witness :
    (stopRecording (recRun (startRecording initRecorder .ok) evC1)).audioBlob
        = some (dataChunks evC1).flatten ∧
    ((stopRecording (recRun (startRecording initRecorder .ok) evC1)).audioBlob.map
        List.length) = some ((dataChunks evC1).map List.length).sum :=
  c1_assembled_blob_is_concat initRecorder evC1 (by decide)

/-! ## Claim C2 -/

/-- Counterexample to claim C2: `startRecording` has an error path —
getUserMedia succeeds but the subsequent MediaRecorder setup throws —
on which the state remains `idle` and the caller is notified, yet the
acquired stream is left open: the catch block (api.ts lines 175-182)
never stops the stream's tracks.  The claim asserts that the
microphone is never left open on any error path of `start()`. -/
theorem c2_counterexample :
    (startRecording initRecorder .recorderCtorFailed).recordingState = .idle ∧
    (startRecording initRecorder .recorderCtorFailed).lastToast
        = some .errStartFailed ∧
    (startRecording initRecorder .recorderCtorFailed).streamOpen = true :=
  ⟨rfl, rfl, rfl⟩

/-- Claim C2 (corrected): when `start()` fails before the stream is
acquired — permission denied or no capture capability — the state
remains `idle`, the caller is notified by a toast, and the component
state is otherwise completely unchanged; when a setup step fails after
the stream was acquired, the state likewise remains `idle` and the
caller is notified, but the stream stays open until component
teardown, whose cleanup releases it. -/
theorem c2_start_failure_state (s : RecorderState)
    (hidle : s.recordingState = .idle) :
    (startRecording s .permissionDenied
        = { s with lastToast := some .errMicDenied } ∧
     (startRecording s .permissionDenied).recordingState = .idle ∧
     (startRecording s .permissionDenied).streamOpen = s.streamOpen) ∧
    (startRecording s .unsupported
        = { s with lastToast := some .errStartFailed } ∧
     (startRecording s .unsupported).recordingState = .idle ∧
     (startRecording s .unsupported).streamOpen = s.streamOpen) ∧
    ((startRecording s .recorderCtorFailed).recordingState = .idle ∧
     (startRecording s .recorderCtorFailed).chunks = s.chunks ∧
     (startRecording s .recorderCtorFailed).duration = s.duration ∧
     (startRecording s .recorderCtorFailed).audioBlob = s.audioBlob ∧
     (startRecording s .recorderCtorFailed).streamOpen = true ∧
     (unmountCleanup (startRecording s .recorderCtorFailed)).streamOpen
        = false) := by
  refine ⟨⟨rfl, ?_, rfl⟩, ⟨rfl, ?_, rfl⟩, ?_, rfl, rfl, rfl, rfl, rfl⟩ <;>
    simpa [startRecording] using hidle

/-- Witness for C2 at the initial component state. -/
theorem c2_start_failure_state_witness :
    (startRecording initRecorder .permissionDenied
        = { initRecorder with lastToast := some .errMicDenied } ∧
     (startRecording initRecorder .permissionDenied).recordingState = .idle ∧
     (startRecording initRecorder .permissionDenied).streamOpen
        = initRecorder.streamOpen) ∧
    (startRecording initRecorder .unsupported
        = { initRecorder with lastToast := some .errStartFailed } ∧
     (startRecording initRecorder .unsupported).recordingState = .idle ∧
     (startRecording initRecorder .unsupported).streamOpen
        = initRecorder.streamOpen) ∧
    ((startRecording initRecorder .recorderCtorFailed).recordingState = .idle ∧
     (startRecording initRecorder .recorderCtorFailed).chunks
        = initRecorder.chunks ∧
     (startRecording initRecorder .recorderCtorFailed).duration
        = initRecorder.duration ∧
     (startRecording initRecorder .recorderCtorFailed).audioBlob
        = initRecorder.audioBlob ∧
     (startRecording initRecorder .recorderCtorFailed).streamOpen = true ∧
     (unmountCleanup (startRecording initRecorder .recorderCtorFailed)).streamOpen
        = false) :=
  c2_start_failure_state initRecorder rfl

/-! ## Claim C8 -/

/-- Claim C8 (confirmed): the elapsed-seconds counter advances by one
per tick only while the state is `recording`, is frozen by a tick in
any other state, is unchanged by `pause()`, `resume()` and `stop()`,
and is monotonically non-decreasing across any event sequence that
contains no `start()` and no `discard()`. -/
theorem c8_elapsed_seconds :
    (∀ s : RecorderState, s.recordingState = .recording →
        (timerTick s).duration = s.duration + 1) ∧
    (∀ s : RecorderState, s.recordingState ≠ .recording →
        (timerTick s).duration = s.duration) ∧
    (∀ s : RecorderState,
        (pauseRecording s).duration = s.duration ∧
        (resumeRecording s).duration = s.duration ∧
        (stopRecording s).duration = s.duration) ∧
    (∀ (s : RecorderState) (evs : List Ev), evs.all noResetEv = true →
        s.duration ≤ (recRun s evs).duration) := by
  refine ⟨?_, ?_, ?_, ?_⟩
  · intro s h
    unfold timerTick
    rw [if_pos h]
  · intro s h
    unfold timerTick
    rw [if_neg h]
  · intro s
    exact ⟨(pauseRecording_fields s).2.2, (resumeRecording_fields s).2.2,
      (stopRecording_fields s).2.2⟩
  · intro s evs h
    exact recRun_duration_mono evs s h

/-- Witness for C8 at concrete states and a concrete trace. -/
theorem c8_elapsed_seconds_witness :
    (timerTick sRecConcrete).duration = sRecConcrete.duration + 1 ∧
    (timerTick initRecorder).duration = initRecorder.duration ∧
    initRecorder.duration ≤ (recRun initRecorder [Ev.tick, Ev.pause]).duration :=
  ⟨c8_elapsed_seconds.1 sRecConcrete rfl,
   c8_elapsed_seconds.2.1 initRecorder (by decide),
   c8_elapsed_seconds.2.2.2 initRecorder [Ev.tick, Ev.pause] (by decide)⟩

/-! ## Claim C9 -/

/-- Claim C9 (confirmed): `discardRecording` is a total function — the
model of a handler that cannot throw — and from any state, in
particular `stopped` or `idle` with or without a blob, URL or chunks,
it leaves the session `idle` with a zero counter and empty buffers; it
is idempotent, and a `start()` that follows it begins a fresh session
with `elapsedSeconds = 0` and no chunks regardless of what the prior
session held. -/
theorem c9_discard_resets (s : RecorderState) :
    (discardRecording s).recordingState = .idle ∧
    (discardRecording s).duration = 0 ∧
    (discardRecording s).chunks = [] ∧
    (discardRecording s).audioBlob = none ∧
    (discardRecording s).audioUrl = false ∧
    discardRecording (discardRecording s) = discardRecording s ∧
    (startRecording (discardRecording s) .ok).duration = 0 ∧
    (startRecording (discardRecording s) .ok).chunks = [] ∧
    (startRecording (discardRecording s) .ok).recordingState = .recording :=
  ⟨rfl, rfl, rfl, rfl, rfl, rfl, rfl, rfl, rfl⟩

/-! ## Claim C10 -/

/-- Claim C10 (confirmed): in every state reachable from the initial
component state, every buffered chunk has size strictly greater than
zero — the `ondataavailable` handler filters out empty payloads — and
an empty chunk-available event leaves the component state entirely
unchanged, so the assembled blob is unaffected by empty capture
events. -/
theorem c10_buffered_chunks_nonempty :
    (∀ (evs : List Ev), ∀ c ∈ (recRun initRecorder evs).chunks, 0 < c.length) ∧
    (∀ s : RecorderState, recStep s (.dataAvailable []) = s) := by
  constructor
  · intro evs
    exact recRun_chunksPos evs initRecorder (by intro c hc; simp [initRecorder] at hc)
  · intro s
    rfl

/-- Witness for C10: a concrete reachable chunk and its positivity. -/
theorem c10_buffered_chunks_nonempty_witness :
    0 < ([5] : Chunk).length :=
  c10_buffered_chunks_nonempty.1 [.start .ok, .dataAvailable [5]] [5] (by decide)

/-! ## Claim C3 -/

/-- Counterexample to claim C3: a line beginning with `# ` is not
rendered as a heading by either emitter.  The DOCX branch turns
`# Title` into a plain run paragraph with the marker intact, and the
PDF branch draws it at the base font size 11, not bold, with the
marker intact — the claim asserts such a line becomes a level-1
heading with the marker stripped. -/
theorem c3_counterexample :
    docxLinePara (j "# Title") = .runsPara [.plainR (j "# Title")] ∧
    pdfLineStep idWrap stC3 (j "# Title")
        = { page := 1, y := 35,
            blocks := [⟨1, 30, [j "# Title"], 11, false, 5⟩] } := by
  constructor <;> decide

/-- Claim C3 (corrected): only the `### ` and `#### ` markers are
recognised, and they are recognised identically by the PDF and Word
emitters — a `### ` line becomes the level-3 rendering (font 13 bold
in the PDF, HEADING_2 in the Word document) and a `#### ` line the
level-4 rendering (font 12 bold, HEADING_3), each with the marker and
one trailing space stripped from the same position; a line that
carries neither marker is rendered as a non-heading by both emitters
(`## ` and `# ` lines included). -/
theorem c3_heading_rule (wrap : Str → List Str) (st : PdfSt) (line : Str)
    (hle : st.y ≤ pdfPrintableBottom) :
    (startsWithS line h3marker = true →
      pdfLineStep wrap st line
        = { st with
              blocks := st.blocks
                ++ [⟨st.page, st.y, wrap (line.drop 4), 13, true, 6⟩],
              y := st.y + (wrap (line.drop 4)).length * 6 } ∧
      docxLinePara line = .headingPara 2 (line.drop 4)) ∧
    (startsWithS line h4marker = true →
      pdfLineStep wrap st line
        = { st with
              blocks := st.blocks
                ++ [⟨st.page, st.y, wrap (line.drop 5), 12, true, 5⟩],
              y := st.y + (wrap (line.drop 5)).length * 5 } ∧
      docxLinePara line = .headingPara 3 (line.drop 5)) ∧
    (startsWithS line h3marker = false → startsWithS line h4marker = false →
      jsTrim line ≠ [] →
      pdfLineStep wrap st line
        = { st with
              blocks := st.blocks
                ++ [⟨st.page, st.y, wrap (stripInlineMarkers line), 11, false, 5⟩],
              y := st.y + (wrap (stripInlineMarkers line)).length * 5 } ∧
      docxLinePara line = .runsPara (lineRuns line)) := by
  have hcheck : pdfPageCheck st = st := pdfPageCheck_of_le st hle
  refine ⟨?_, ?_, ?_⟩
  · intro h
    constructor
    · unfold pdfLineStep
      rw [hcheck]
      unfold pdfRenderLine
      rw [if_pos h]
    · unfold docxLinePara
      rw [if_pos h]
  · intro h
    have hh3 := h4_not_h3 line h
    constructor
    · unfold pdfLineStep
      rw [hcheck]
      unfold pdfRenderLine
      rw [if_neg (by simp [hh3]), if_pos h]
    · unfold docxLinePara
      rw [if_neg (by simp [hh3]), if_pos h]
  · intro h3f h4f htrim
    constructor
    · unfold pdfLineStep
      rw [hcheck]
      unfold pdfRenderLine
      rw [if_neg (by simp [h3f]), if_neg (by simp [h4f]), if_pos htrim]
    · unfold docxLinePara
      rw [if_neg (by simp [h3f]), if_neg (by simp [h4f]), if_pos htrim]

/-- Witness for C3 at a concrete heading line and loop state. -/
theorem c3_heading_rule_witness :
    pdfLineStep idWrap stC3 (j "### Hi")
        = { stC3 with
              blocks := stC3.blocks
                ++ [⟨stC3.page, stC3.y, idWrap ((j "### Hi").drop 4), 13, true, 6⟩],
              y := stC3.y + (idWrap ((j "### Hi").drop 4)).length * 6 } ∧
    docxLinePara (j "### Hi") = .headingPara 2 ((j "### Hi").drop 4) :=
  (c3_heading_rule idWrap stC3 (j "### Hi") (by decide)).1 (by decide)

/-! ## Claim C4 -/

theorem chunkGo_nonempty (fuel : Nat) (s : Str) :
    1 ≤ (chunkGo fuel s).length := by
  cases fuel with
  | zero => simp [chunkGo]
  | succ f =>
      unfold chunkGo
      split <;> simp

theorem wrap50_len (s : Str) : 1 ≤ (wrap50 s).length :=
  chunkGo_nonempty s.length s

set_option maxRecDepth 100000 in
/-- Counterexample to claim C4: the page check runs only before each
source line, so after 49 short lines the cursor stands at 275 and a
600-character line that wraps to 12 display lines is drawn there — by
the code's own accounting of 5mm of cursor per display line its lower
display lines lie far below the printable bottom (275 + 11*5 = 330 >
277) while the document still has a single page.  The claim asserts
the PDF emitter never draws text outside the printable margin
region. -/
theorem c4_counterexample :
    ((handleExportPdf wrap50 c4letter (j "2026-10-11")).blocks.any
        blockOverflows) = true ∧
    (handleExportPdf wrap50 c4letter (j "2026-10-11")).pages = 1 := by
  constructor <;> decide

/-- Claim C4 (corrected): the PDF emitter checks the cursor before
each source line and starts a new page with the cursor reset to the
top margin whenever the cursor exceeds the printable height, so every
text block *starts* inside the printable region, and a body of at
least 52 lines yields at least two pages under the same margins; a
single source line wrapping to several display lines can nevertheless
extend below the bottom margin (see the counterexample). -/
theorem c4_pdf_pagination (wrap : Str → List Str) (letter : Letter)
    (today : Str) (hwrap : ∀ s, 1 ≤ (wrap s).length) :
    (∀ b ∈ (handleExportPdf wrap letter today).blocks,
        pdfMargin ≤ b.y ∧ b.y ≤ pdfPrintableBottom) ∧
    (52 ≤ (splitOnNl letter.content).length →
        2 ≤ (handleExportPdf wrap letter today).pages) := by
  obtain ⟨hpage, hy, hblocks⟩ := pdfHeaderSt_facts letter
  constructor
  · have h := pdfFold_invariants wrap (splitOnNl letter.content)
      (pdfHeaderSt letter) (le_trans (by decide) hy) hblocks
    exact h.2
  · intro hlen
    exact pdfFold_two_pages wrap hwrap (splitOnNl letter.content)
      (pdfHeaderSt letter) hpage hy hlen

set_option maxRecDepth 100000 in
/-- Witness for C4: a 52-line body paginates onto a second page. -/
theorem c4_pdf_pagination_witness :
    2 ≤ (handleExportPdf wrap50 c4letter52 (j "2026-10-11")).pages :=
  (c4_pdf_pagination wrap50 c4letter52 (j "2026-10-11") wrap50_len).2 (by decide)

/-! ## Claim C5 -/

/-- Counterexample to claim C5: on the specification's fixed content,
the paragraph built for the line with inline markers has five runs —
plain, italic, plain, bold, plain — not three. -/
theorem c5_counterexample :
    (lineRuns c5plainLine).length = 5 ∧
    ¬ (lineRuns c5plainLine).length = 3 := by
  constructor <;> decide

/-- Claim C5 (corrected): the Word emitter maps `### ` to heading
level 2 and `#### ` to heading level 3, and on the fixed content it
produces exactly one heading paragraph, one paragraph with five runs
as produced by the delimiter scan, one empty paragraph, and one
closing paragraph. -/
theorem c5_docx_paragraphs :
    (∀ t : Str, docxLinePara (h3marker ++ t) = .headingPara 2 t) ∧
    (∀ t : Str, docxLinePara (h4marker ++ t) = .headingPara 3 t) ∧
    docxBodyParas c5content
      = [.headingPara 2 (j "Heading"),
         .runsPara [.plainR (j "Plain line with "), .italicR (j "italic"),
                    .plainR (j " and "), .boldR (j "bold"), .plainR (j ".")],
         .textPara [],
         .runsPara [.plainR (j "Second paragraph.")]] := by
  refine ⟨?_, ?_, by decide⟩
  · intro t
    unfold docxLinePara
    rw [if_pos (startsWithS_append_self h3marker t)]
    have hd : (h3marker ++ t).drop 4 = t := drop_marker h3marker t
    rw [hd]
  · intro t
    have hh3 := h4_not_h3 (h4marker ++ t) (startsWithS_append_self h4marker t)
    unfold docxLinePara
    rw [if_neg (by simp [hh3]), if_pos (startsWithS_append_self h4marker t)]
    have hd : (h4marker ++ t).drop 5 = t := drop_marker h4marker t
    rw [hd]

/-! ## Claim C6 -/

/-- Claim C6 (confirmed): for every letter and date the three emitters
produce filenames sharing the identical base
`{LetterTypeLabel}_{PatientNameOrLetter}_{ISODate}` and differing only
in their extension, and when the patient name is absent the literal
`Letter` is used. -/
theorem c6_filenames_share_base (letter : Letter) (today : Str)
    (wrap : Str → List Str) :
    (handleExportTxt letter today).filename
        = exportFilename letter today ++ j ".txt" ∧
    (handleExportPdf wrap letter today).filename
        = exportFilename letter today ++ j ".pdf" ∧
    (handleExportDocx letter today).filename
        = exportFilename letter today ++ j ".docx" ∧
    exportFilename { letter with patient_name := none } today
        = letterTypeLabel letter.letter_type ++ j "_" ++ j "Letter"
            ++ j "_" ++ today :=
  ⟨rfl, rfl, rfl, rfl⟩

/-! ## Claim C7 -/

/-- Claim C7 (confirmed): the text emitter outputs the content
verbatim as a text/plain payload with no markdown stripping; applied
to `Hello **world**` it yields exactly that character sequence (all
ASCII, hence exactly those UTF-8 bytes). -/
theorem c7_txt_verbatim :
    (∀ (letter : Letter) (today : Str),
        (handleExportTxt letter today).payload = letter.content ∧
        (handleExportTxt letter today).mimeType = j "text/plain") ∧
    (handleExportTxt c7letter (j "2026-10-11")).payload
        = ['H', 'e', 'l', 'l', 'o', ' ', '*', '*', 'w', 'o', 'r', 'l', 'd',
           '*', '*'] :=
  ⟨fun _ _ => ⟨rfl, rfl⟩, by decide⟩
